import Mathlib

/-!
Verification development for the pdf-to-ppt-video pipeline.

The Python sources are shallowly embedded as Lean functions.  External
services (the generative AI text service, the icon search service, the
speech synthesis service, PDF and OCR libraries) are modelled as oracle
parameters; everything the repository itself computes is translated
faithfully from the source files.
-/

namespace PdfToPpt

/-! ### Generic string helpers (Python string primitives used by the code) -/

/-- Python str.split with no argument: split on whitespace runs, dropping
empty pieces.  The accumulator holds the current word reversed. -/
def splitWS : List Char → List Char → List String
  | [], acc => if acc = [] then [] else [String.mk acc.reverse]
  | c :: cs, acc =>
      if c.isWhitespace then
        if acc = [] then splitWS cs [] else String.mk acc.reverse :: splitWS cs []
      else splitWS cs (c :: acc)

/-- Python s.split() on a string. -/
def pyWords (s : String) : List String := splitWS s.toList []

/-- Python s.strip(chars): remove leading and trailing characters
satisfying the predicate. -/
def stripChars (p : Char → Bool) (s : String) : String :=
  String.mk (((s.toList.dropWhile p).reverse.dropWhile p).reverse)

/-- Python s.strip() with no argument strips whitespace. -/
def pyStrip (s : String) : String := stripChars Char.isWhitespace s

/-- Python s.lower(). -/
def lowerStr (s : String) : String := String.mk (s.toList.map Char.toLower)

/-- Whether the pattern list begins the given list. -/
def beginsWith : List Char → List Char → Bool
  | [], _ => true
  | _ :: _, [] => false
  | c :: cs, d :: ds => c == d && beginsWith cs ds

/-- Whether the pattern occurs somewhere in the list. -/
def subOccurs (pat : List Char) : List Char → Bool
  | [] => pat.isEmpty
  | c :: cs => beginsWith pat (c :: cs) || subOccurs pat cs

/-- Python pat in s for strings. -/
def containsSub (s pat : String) : Bool := subOccurs pat.toList s.toList

/-- Python f-string 02d formatting of a natural number. -/
def pad2 (n : Nat) : String := if n < 10 then "0" ++ toString n else toString n

/-! ### src/pdf_parser.py -/

/-- Threshold below which a page's digital text is considered insufficient
(MIN_DIGITAL_TEXT_THRESHOLD in pdf_parser.py). -/
def MIN_DIGITAL_TEXT_THRESHOLD : Nat := 100

/-- One page of the input PDF, as seen through the external libraries:
rawDigital is what page.get_text() returns, rawOcr what
pytesseract.image_to_string returns for the rasterized page. -/
structure PageData where
  rawDigital : String
  rawOcr : String
deriving DecidableEq

/-- The extraction_stats dictionary of PDFParser. -/
structure ExtractionStats where
  digital_pages : Nat
  ocr_pages : Nat
  hybrid_pages : Nat
deriving DecidableEq

/-- PDFParser.extract_text_from_page: per-page triage between digital text
and OCR, threading the mutable extraction_stats counters explicitly. -/
def extract_text_from_page (stats : ExtractionStats) (p : PageData) :
    String × ExtractionStats :=
  let digital_text := pyStrip p.rawDigital
  if MIN_DIGITAL_TEXT_THRESHOLD < digital_text.length then
    (digital_text, { stats with digital_pages := stats.digital_pages + 1 })
  else
    let ocr_text := pyStrip p.rawOcr
    if digital_text.length < ocr_text.length then
      (ocr_text, { stats with ocr_pages := stats.ocr_pages + 1 })
    else
      (digital_text, { stats with hybrid_pages := stats.hybrid_pages + 1 })

/-- PDFParser.extract_structured_content: resets the stats (whatever the
instance's stats were before the call), then processes every page in
order, collecting per-page texts and the final stats. -/
def extract_structured_content (_statsBefore : ExtractionStats)
    (pages : List PageData) : List String × ExtractionStats :=
  pages.foldl
    (fun acc p =>
      let r := extract_text_from_page acc.2 p
      (acc.1 ++ [r.1], r.2))
    ([], ⟨0, 0, 0⟩)

/-! ### src/summarizer.py -/

/-- A content slide record as produced by the summarization stage. -/
structure Slide where
  title : String
  bullets : List String
  speaker_notes : String
deriving DecidableEq

/-- A slide object as found in the JSON array returned by the AI text
service; any of the three fields may be missing. -/
structure RawSlide where
  title : Option String
  bullets : Option (List String)
  speaker_notes : Option String
deriving DecidableEq

/-- Outcome of the sequence "call the AI service, strip markdown fences,
parse JSON": either a parsed array of raw slide objects, or a failure
(either the API raised or the JSON did not parse), which the code handles
identically by falling back. -/
inductive AIOutcome where
  | success (slides : List RawSlide)
  | failure
deriving DecidableEq

/-- The validation step of ContentSummarizer.extract_key_points: keep a
slide only when all three fields are present, truncating bullets to at
most 3. -/
def validateSlide (r : RawSlide) : Option Slide :=
  match r.title, r.bullets, r.speaker_notes with
  | some t, some bs, some n =>
      some { title := t, bullets := bs.take 3, speaker_notes := n }
  | _, _, _ => none

/-- One slide fabricated by ContentSummarizer._fallback_extraction from a
chunk of paragraphs.  idx is len(slides) + 1 at the time of the append. -/
def mkFallbackSlide (idx : Nat) (chunk : List String) : Slide :=
  { title := "Key Point " ++ toString idx,
    bullets := chunk.take 3,
    speaker_notes := (String.intercalate " " chunk).take 200 }

/-- The chunking loop of _fallback_extraction.  The Python loop walks the
paragraph list with stride paragraphs_per_slide; here the stride is
ppsPred + 1 so that termination is by the shrinking list.  The loop
appends a slide for the chunk starting at the current position and stops
once num_points slides have been produced. -/
def chunkLoop (ppsPred num_points : Nat) : List String → List Slide → List Slide
  | [], acc => acc
  | p :: rest, acc =>
      let slide := mkFallbackSlide (acc.length + 1) ((p :: rest).take (ppsPred + 1))
      let acc2 := acc ++ [slide]
      if num_points ≤ acc2.length then acc2
      else chunkLoop ppsPred num_points (rest.drop ppsPred) acc2
termination_by l _ => l.length
decreasing_by simp [List.length_drop]; omega

/-- ContentSummarizer._fallback_extraction: split the text into stripped
nonempty paragraphs and chunk them into naive slides. -/
def fallback_extraction (text : String) (num_points : Nat) : List Slide :=
  let paragraphs := ((text.splitOn "\n\n").map pyStrip).filter (fun p => p ≠ "")
  let paragraphs_per_slide := max 1 (paragraphs.length / num_points)
  chunkLoop (paragraphs_per_slide - 1) num_points paragraphs []

/-- ContentSummarizer.extract_key_points: clamp num_points to max_slides,
then either validate the parsed AI response (truncating to max_slides
slides) or fall back to paragraph chunking on any failure. -/
def extract_key_points (outcome : AIOutcome) (text : String)
    (num_points max_slides : Nat) : List Slide :=
  let np := min num_points max_slides
  match outcome with
  | .success raws => (raws.filterMap validateSlide).take max_slides
  | .failure => fallback_extraction text np

/-- Outcome of one generate_content call on one API key, for a fixed
prompt: the response text, or the message of the raised exception. -/
inductive GeminiResult where
  | ok (text : String)
  | err (msg : String)
deriving DecidableEq

/-- How _call_gemini can end: the final raise after the key pool is
exhausted (carrying the last error message), or an immediately propagated
non-rate-limit error. -/
inductive GeminiError where
  | allFailed (last : Option String)
  | other (msg : String)
deriving DecidableEq

/-- The rate-limit / quota signatures checked by _call_gemini. -/
def rateLimitTerms : List String := ["rate", "quota", "limit", "resource_exhausted"]

/-- Classification of an exception message: str(e).lower() contains one of
the signatures. -/
def isRateLimitMsg (msg : String) : Bool :=
  rateLimitTerms.any (fun t => containsSub (lowerStr msg) t)

/-- Whether a per-key outcome is an error with a rate-limit signature. -/
def isRateLimitedResult : GeminiResult → Bool
  | .ok _ => false
  | .err m => isRateLimitMsg m

/-- The retry loop of ContentSummarizer._call_gemini (identical code in
IconSearchQueryGenerator._call_gemini).  fuel is the remaining iterations
of the for-loop over range(len(api_keys)); idx is current_key_index;
lastError tracks last_error.  A rate-limited error rotates to the next
key when one remains and otherwise breaks out to the final raise; any
other error is re-raised at once. -/
def callLoop (keyResult : Nat → GeminiResult) (numKeys : Nat) :
    Nat → Nat → Option String → Except GeminiError String
  | 0, _, lastError => .error (.allFailed lastError)
  | fuel + 1, idx, _lastError =>
    match keyResult idx with
    | .ok t => .ok t
    | .err m =>
      if isRateLimitMsg m then
        if idx + 1 < numKeys then callLoop keyResult numKeys fuel (idx + 1) (some m)
        else .error (.allFailed (some m))
      else .error (.other m)

/-- _call_gemini entered with the pool of numKeys keys and the instance's
current key index. -/
def call_gemini (keyResult : Nat → GeminiResult) (numKeys startIdx : Nat) :
    Except GeminiError String :=
  callLoop keyResult numKeys numKeys startIdx none

/-- The title slide record. -/
structure TitleSlide where
  title : String
  subtitle : String
deriving DecidableEq

/-- ContentSummarizer.generate_title_slide: the parsed AI response when
the call and the JSON parse succeed, otherwise a record fabricated from
the filename. -/
def generate_title_slide (resp : Option TitleSlide) (filename : String) : TitleSlide :=
  match resp with
  | some t => t
  | none =>
      { title := (filename.replace "_" " ").replace ".pdf" "",
        subtitle := "Key Insights and Learnings" }

/-- The per-slide narration text: the speaker notes when present (Python
truthiness: a nonempty string), otherwise the title followed by the
joined bullets.  This expression appears verbatim both in
ContentSummarizer.summarize_for_video and in generate_tts_audio of
video_creator.py. -/
def narration_text (s : Slide) : String :=
  if s.speaker_notes ≠ "" then s.speaker_notes
  else s.title ++ ". " ++ String.intercalate " " s.bullets

/-- ContentSummarizer.summarize_for_video: join the per-slide narration
parts with single spaces. -/
def summarize_for_video (slides : List Slide) : String :=
  String.intercalate " " (slides.map narration_text)

/-- The dictionary returned by extract_slides_from_pdf_text (the slides
JSON written to disk). -/
structure SlidesData where
  title_slide : TitleSlide
  content_slides : List Slide
  total_slides : Nat
  narration_script : String
deriving DecidableEq

/-- extract_slides_from_pdf_text: build the title slide, the content
slides (target count num_slides, max_slides left at its default 12) and
assemble the output dictionary. -/
def extract_slides_from_pdf_text (titleResp : Option TitleSlide)
    (outcome : AIOutcome) (pdf_text : String) (num_slides : Nat) : SlidesData :=
  let title_slide := generate_title_slide titleResp ""
  let content_slides := extract_key_points outcome pdf_text num_slides 12
  { title_slide := title_slide,
    content_slides := content_slides,
    total_slides := content_slides.length + 1,
    narration_script := summarize_for_video content_slides }

/-! ### src/image_generator.py -/

/-- The stop-word set shared by the title heuristics of
IconSearchQueryGenerator. -/
def stop_words : List String :=
  ["the", "a", "an", "and", "or", "but", "in", "on", "at", "to", "for",
   "of", "with", "by", "from", "up", "about", "into", "through", "during"]

/-- The generic fallback terms of _extract_alternative_from_title. -/
def generic_fallbacks : List String :=
  ["icon", "symbol", "graphic", "element", "concept"]

/-- The single-quote character (written by code point to keep the source
free of quote-literal noise). -/
def squote : Char := Char.ofNat 39

/-- Python word.strip of the punctuation characters used when cleaning
title words. -/
def stripPunct (w : String) : String :=
  stripChars
    (fun c => c == ',' || c == ':' || c == ';' || c == '.' || c == '!' || c == '?') w

/-- IconSearchQueryGenerator._extract_alternative_from_title: first
sufficiently long non-stop-word of the lowercased title that is not in
the avoid list; otherwise the first generic fallback not in the avoid
list; otherwise the ultimate fallback. -/
def extract_alternative_from_title (title : String) (avoid : List String) : String :=
  let words := pyWords (lowerStr title)
  let candidates := (words.map stripPunct).filter
    (fun w => !(stop_words.contains w) && 3 < w.length)
  match candidates.find? (fun c => !(avoid.contains c)) with
  | some c => c
  | none =>
    match generic_fallbacks.find? (fun g => !(avoid.contains g)) with
    | some g => g
    | none => "circle"

/-- The response cleaning applied by generate_alternative_query (and by
generate_icon_query): strip whitespace, double quotes and single quotes,
lowercase, keep the first 3 words. -/
def cleanQuery (raw : String) : String :=
  let s := lowerStr (stripChars (fun c => c == squote)
    (stripChars (fun c => c == '"') (pyStrip raw)))
  String.intercalate " " ((pyWords s).take 3)

/-- IconSearchQueryGenerator.generate_alternative_query.  gem models the
_call_gemini round trip for the prompt built from the slide content and
the failed-query list (none when the call raises); its cleaned answer is
used unless it repeats a failed query, in which case (as on a raised
call) the title heuristic is used. -/
def generate_alternative_query (gem : List String → Option String) (title : String)
    (failed_queries : List String) : String :=
  match gem failed_queries with
  | some raw =>
    let query := cleanQuery raw
    if failed_queries.contains query then
      extract_alternative_from_title title failed_queries
    else query
  | none => extract_alternative_from_title title failed_queries

/-- The unconditional final fallback attempt of search_and_download.
tryQ models one _try_search_download round trip (search call, candidate
check, download) for a given query; the pair returned is the result
together with the full ordered list of queries attempted so far. -/
def finalAttempt (tryQ : String → Bool) (failed : List String) : Bool × List String :=
  (tryQ "circle", failed ++ ["circle"])

/-- Attempts 3 and 4 of search_and_download: the two alternative-query
retries, present only when a query generator, a slide title and bullets
were all supplied (gen is some altQ in that case, the two iterations of
the range(2) loop unrolled), followed by the final fallback. -/
def afterWords (tryQ : String → Bool) (gen : Option (List String → String))
    (failed : List String) : Bool × List String :=
  match gen with
  | some altQ =>
    let a1 := altQ failed
    if tryQ a1 then (true, failed ++ [a1])
    else
      let failed2 := failed ++ [a1]
      let a2 := altQ failed2
      if tryQ a2 then (true, failed2 ++ [a2])
      else finalAttempt tryQ (failed2 ++ [a2])
  | none => finalAttempt tryQ failed

/-- NounProjectIconFetcher.search_and_download: the original query, then
(for a multi-word query) its first word, then the alternative-query
phase, then the generic fallback; the chain stops at the first success.
The second component records every query attempted, in order. -/
def search_and_download (tryQ : String → Bool)
    (gen : Option (List String → String)) (query : String) : Bool × List String :=
  if tryQ query then (true, [query])
  else
    let words := pyWords query
    if words.length > 1 then
      let fallback_query := words.headD ""
      if tryQ fallback_query then (true, [query, fallback_query])
      else afterWords tryQ gen [query, fallback_query]
    else afterWords tryQ gen [query]

/-- The queries the alternative phase would attempt if every attempt
failed: the two generated alternatives (when a generator is available)
and the generic fallback. -/
def altChain (gen : Option (List String → String)) (failed : List String) :
    List String :=
  (match gen with
   | some altQ =>
     let a1 := altQ failed
     [a1, altQ (failed ++ [a1])]
   | none => []) ++ ["circle"]

/-- The full ordered query chain of one search_and_download call, as it
would unfold if every attempt failed. -/
def icon_query_chain (gen : Option (List String → String)) (query : String) :
    List String :=
  let base := if (pyWords query).length > 1
    then [query, (pyWords query).headD ""] else [query]
  base ++ altChain gen base

/-- Keep elements of the list up to and including the first one satisfying
the predicate. -/
def takeThrough (p : String → Bool) : List String → List String
  | [] => []
  | q :: rest => if p q then [q] else q :: takeThrough p rest

/-! ### src/pdf_slide_creator.py -/

/-- The greedy word-wrapping loop shared by the deck renderers: append the
next word to the current line while the measured width of the extended
line stays strictly under the limit, otherwise emit the line (when
nonempty) and start a new one from the word.  The measure w abstracts
canvas.stringWidth at the font and size in use. -/
def wrapLoop (w : String → ℚ) (maxWidth : ℚ) : List String → String → List String
  | [], current_line => if current_line = "" then [] else [current_line]
  | word :: rest, current_line =>
      let test_line := if current_line = "" then word
        else current_line ++ " " ++ word
      if w test_line < maxWidth then wrapLoop w maxWidth rest test_line
      else if current_line = "" then wrapLoop w maxWidth rest word
      else current_line :: wrapLoop w maxWidth rest word

/-- PDFSlideCreator._wrap_text (the same loop appears inline in
_create_title_slide and _create_content_slide): split the text into words
and wrap greedily. -/
def wrap_text (w : String → ℚ) (maxWidth : ℚ) (text : String) : List String :=
  wrapLoop w maxWidth (pyWords text) ""

/-! ### src/video_creator.py -/

/-- The fixed silent display duration of the title slide
(title_duration default argument of generate_tts_audio). -/
def title_default_duration : ℚ := 3

/-- The audio file naming scheme audio_NN.mp3 of generate_tts_audio. -/
def audio_file_name (i : Nat) : String := "audio_" ++ pad2 i ++ ".mp3"

/-- The rasterized slide image naming scheme slide_NN.png of
convert_pdf_to_images. -/
def slide_image_name (i : Nat) : String := "slide_" ++ pad2 i ++ ".png"

/-- convert_pdf_to_images: one PNG per PDF page, zero-padded sequential
naming starting at index 0.  The rendered slides PDF has one page for the
title slide followed by one page per content slide. -/
def convert_pdf_to_images (num_pdf_pages : Nat) : List String :=
  (List.range num_pdf_pages).map slide_image_name

/-- The content-slide loop of generate_tts_audio, starting at slide index
i: one synthesized clip per slide, narrating the speaker notes (or the
title-plus-bullets fallback).  dur models the measured duration of the
clip synthesized from a given narration text. -/
def ttsLoop (dur : String → ℚ) : Nat → List Slide → List (Option String × ℚ)
  | _, [] => []
  | i, s :: rest =>
      (some (audio_file_name i), dur (narration_text s)) :: ttsLoop dur (i + 1) rest

/-- generate_tts_audio: the silent title entry with the fixed display
duration followed by one narration clip per content slide. -/
def generate_tts_audio (dur : String → ℚ) (content_slides : List Slide) :
    List (Option String × ℚ) :=
  (none, title_default_duration) :: ttsLoop dur 1 content_slides

/-- VideoCreator.create_video reduced to its pairing structure: zip the
slide images with the audio clips in order; a clip keeps its audio track
when an audio path is present and the file exists. -/
def create_video (fileExists : String → Bool) (slide_images : List String)
    (audio_clips : List (Option String × ℚ)) : List (String × Option String × ℚ) :=
  (slide_images.zip audio_clips).map
    (fun pr =>
      (pr.1,
       match pr.2.1 with
       | some a => if fileExists a then some a else none
       | none => none,
       pr.2.2))

/-- Lexicographic comparison of character lists by code point. -/
def charListLe : List Char → List Char → Bool
  | [], _ => true
  | _ :: _, [] => false
  | c :: cs, d :: ds =>
      if c.toNat < d.toNat then true
      else if d.toNat < c.toNat then false
      else charListLe cs ds

/-- Lexicographic string order, as used by Python sorted on file names. -/
def strLe (s t : String) : Bool := charListLe s.toList t.toList

/-- Insertion of a string into a sorted list (ascending lexicographic
order). -/
def insertStr (s : String) : List String → List String
  | [] => [s]
  | t :: ts => if strLe s t then s :: t :: ts else t :: insertStr s ts

/-- Python sorted on a list of strings. -/
def sortStrs : List String → List String
  | [] => []
  | s :: ss => insertStr s (sortStrs ss)

/-- create_video_complete: step 1 regenerates the slide images unless
slide PNG files already exist (in which case the sorted existing files
are used); step 2 regenerates the TTS audio unless audio MP3 files
already exist (in which case the sorted existing files are loaded with
their measured durations durOfFile, with no silent title entry); step 3
assembles the video from the two lists.  existing_images and
existing_audio are the matching files found on disk (empty when the
directory is missing or has no matches). -/
def create_video_complete (dur : String → ℚ) (durOfFile : String → ℚ)
    (content_slides : List Slide) (existing_images existing_audio : List String)
    (fileExists : String → Bool) : List (String × Option String × ℚ) :=
  let slide_images :=
    if existing_images.isEmpty then convert_pdf_to_images (content_slides.length + 1)
    else sortStrs existing_images
  let audio_clips :=
    if existing_audio.isEmpty then generate_tts_audio dur content_slides
    else (sortStrs existing_audio).map (fun f => (some f, durOfFile f))
  create_video fileExists slide_images audio_clips

end PdfToPpt

namespace PdfToPpt

/-! ### First theorems: claims C5 and C10 (pdf_parser.py) -/

theorem stats_sum_foldl (pages : List PageData) :
    ∀ (acc : List String) (s : ExtractionStats),
      ((pages.foldl
        (fun acc p =>
          let r := extract_text_from_page acc.2 p
          (acc.1 ++ [r.1], r.2)) (acc, s)).2.digital_pages
        + (pages.foldl
        (fun acc p =>
          let r := extract_text_from_page acc.2 p
          (acc.1 ++ [r.1], r.2)) (acc, s)).2.ocr_pages
        + (pages.foldl
        (fun acc p =>
          let r := extract_text_from_page acc.2 p
          (acc.1 ++ [r.1], r.2)) (acc, s)).2.hybrid_pages)
      = (s.digital_pages + s.ocr_pages + s.hybrid_pages) + pages.length := by
  induction pages with
  | nil => intro acc s; simp
  | cons p rest ih =>
    intro acc s
    simp only [List.foldl_cons, List.length_cons]
    rw [ih]
    unfold extract_text_from_page
    dsimp only
    split
    · simp; omega
    · split <;> · simp; omega

/-- Claim C10: after every call to extract_structured_content the three
extraction counters were reset at the start of the call and each processed
page incremented exactly one of them, so digital_pages + ocr_pages +
hybrid_pages equals the number of pages, whatever the counters held
before the call. -/
theorem extraction_stats_partition_pages
    (statsBefore : ExtractionStats) (pages : List PageData) :
    (extract_structured_content statsBefore pages).2.digital_pages
      + (extract_structured_content statsBefore pages).2.ocr_pages
      + (extract_structured_content statsBefore pages).2.hybrid_pages
      = pages.length := by
  unfold extract_structured_content
  have h := stats_sum_foldl pages [] ⟨0, 0, 0⟩
  simpa using h

/-- Claim C5: per-page extraction returns the (stripped) digital text
whenever its character count exceeds the threshold 100; otherwise it runs
OCR and returns the OCR text exactly when it is strictly longer than the
digital text, and the digital text otherwise. -/
theorem extract_page_triage (stats : ExtractionStats) (p : PageData) :
    (MIN_DIGITAL_TEXT_THRESHOLD < (pyStrip p.rawDigital).length →
      (extract_text_from_page stats p).1 = pyStrip p.rawDigital)
    ∧ ((pyStrip p.rawDigital).length ≤ MIN_DIGITAL_TEXT_THRESHOLD →
        ((pyStrip p.rawDigital).length < (pyStrip p.rawOcr).length →
          (extract_text_from_page stats p).1 = pyStrip p.rawOcr)
        ∧ ((pyStrip p.rawOcr).length ≤ (pyStrip p.rawDigital).length →
          (extract_text_from_page stats p).1 = pyStrip p.rawDigital)) := by
  unfold extract_text_from_page
  dsimp only
  refine ⟨fun h => ?_, fun h => ⟨fun h2 => ?_, fun h2 => ?_⟩⟩
  · rw [if_pos h]
  · rw [if_neg (by omega), if_pos h2]
  · rw [if_neg (by omega), if_neg (by omega)]

/-- Witness for claim C5: a concrete page with 3 characters of digital
text and 6 characters of OCR text takes the OCR branch. -/
theorem extract_page_triage_witness :
    (extract_text_from_page ⟨0, 0, 0⟩ ⟨"abc", "abcdef"⟩).1 = pyStrip "abcdef" :=
  ((extract_page_triage ⟨0, 0, 0⟩ ⟨"abc", "abcdef"⟩).2 (by decide)).1 (by decide)

/-! ### Claim C6 (summarizer.py bullets) -/

theorem chunkLoop_bullets_le (ppsPred num_points : Nat) :
    ∀ (n : Nat) (l : List String) (acc : List Slide), l.length ≤ n →
      (∀ s ∈ acc, s.bullets.length ≤ 3) →
      ∀ s ∈ chunkLoop ppsPred num_points l acc, s.bullets.length ≤ 3 := by
  intro n
  induction n with
  | zero =>
    intro l acc hl hacc s hs
    have : l = [] := List.length_eq_zero.mp (Nat.le_zero.mp hl)
    subst this
    simp only [chunkLoop] at hs
    exact hacc s hs
  | succ n ih =>
    intro l acc hl hacc s hs
    cases l with
    | nil =>
      simp only [chunkLoop] at hs
      exact hacc s hs
    | cons p rest =>
      simp only [chunkLoop] at hs
      have hnew : ∀ t ∈ acc ++ [mkFallbackSlide (acc.length + 1)
          ((p :: rest).take (ppsPred + 1))], t.bullets.length ≤ 3 := by
        intro t ht
        rcases List.mem_append.mp ht with h | h
        · exact hacc t h
        · have : t = mkFallbackSlide (acc.length + 1)
              ((p :: rest).take (ppsPred + 1)) := List.mem_singleton.mp h
          subst this
          simp [mkFallbackSlide]
      split at hs
      · exact hnew s hs
      · refine ih (rest.drop ppsPred) _ ?_ hnew s hs
        simp only [List.length_drop]
        have := Nat.succ_le_succ_iff.mp hl
        omega

/-- Counterexample to claim C6: an AI response containing a slide with a
single bullet passes validation unchanged, so the summarization stage
produces a slide with fewer than 2 bullets. -/
theorem bullet_minimum_cex :
    ((extract_key_points
        (.success [⟨some "Topic", some ["only bullet"], some "note"⟩]) "" 8 12).map
      (fun s => s.bullets.length)) = [1] := by
  decide

/-- Claim C6 (amended): every content slide produced by the summarization
stage, via the AI path or via the paragraph-chunking fallback, has at
most 3 bullets (bullets beyond the third are truncated); no lower bound
of 2 bullets is enforced. -/
theorem bullets_at_most_three (outcome : AIOutcome) (text : String)
    (num_points max_slides : Nat) (s : Slide)
    (hs : s ∈ extract_key_points outcome text num_points max_slides) :
    s.bullets.length ≤ 3 := by
  unfold extract_key_points at hs
  cases outcome with
  | success raws =>
    simp only at hs
    have hmem := List.mem_of_mem_take hs
    obtain ⟨r, _, hr⟩ := List.mem_filterMap.mp hmem
    unfold validateSlide at hr
    rcases r with ⟨t, bs, no⟩
    cases t <;> cases bs <;> cases no <;> simp_all
    subst hr
    simp
  | failure =>
    exact chunkLoop_bullets_le _ _ _ _ [] (le_refl _) (by simp) s hs

/-- Witness for claim C6 (amended): the concrete validated slide from the
counterexample input indeed has at most 3 bullets. -/
theorem bullets_at_most_three_witness :
    (Slide.mk "Topic" ["only bullet"] "note").bullets.length ≤ 3 :=
  bullets_at_most_three
    (.success [⟨some "Topic", some ["only bullet"], some "note"⟩]) "" 8 12
    (Slide.mk "Topic" ["only bullet"] "note") (by decide)

/-! ### Claim C7 (summarizer.py credential rotation) -/

theorem callLoop_reach (keyResult : Nat → GeminiResult) (numKeys : Nat) :
    ∀ (i : Nat), i < numKeys →
      (∀ j, j < i → isRateLimitedResult (keyResult j) = true) →
      ∃ lastError, call_gemini keyResult numKeys 0
        = callLoop keyResult numKeys (numKeys - i) i lastError := by
  intro i
  induction i with
  | zero => intro _ _; exact ⟨none, by simp [call_gemini]⟩
  | succ i ih =>
    intro h hall
    obtain ⟨last, hl⟩ := ih (by omega) (fun j hj => hall j (by omega))
    have hi : isRateLimitedResult (keyResult i) = true := hall i (by omega)
    cases hk : keyResult i with
    | ok t => rw [hk] at hi; simp [isRateLimitedResult] at hi
    | err m =>
      rw [hk] at hi
      have hm : isRateLimitMsg m = true := hi
      refine ⟨some m, ?_⟩
      have hfuel : numKeys - i = (numKeys - (i + 1)) + 1 := by omega
      rw [hl, hfuel]
      simp only [callLoop, hk, hm, if_pos h, if_true]

/-- Claim C7: for a fresh call (current key index 0), rate-limit-signature
errors rotate through the key pool in order; the call returns the first
successful response, propagates the first non-rate-limit error at once
with no further rotation, and raises the all-keys-failed error only when
every key in the pool failed with a rate-limit signature (carrying the
last such message). -/
theorem gemini_key_rotation (keyResult : Nat → GeminiResult) (numKeys : Nat) :
    (∀ i, i < numKeys →
      (∀ j, j < i → isRateLimitedResult (keyResult j) = true) →
      (∀ t, keyResult i = .ok t → call_gemini keyResult numKeys 0 = .ok t)
      ∧ (∀ m, keyResult i = .err m → isRateLimitMsg m = false →
          call_gemini keyResult numKeys 0 = .error (.other m)))
    ∧ (0 < numKeys →
      (∀ j, j < numKeys → isRateLimitedResult (keyResult j) = true) →
      ∃ m, call_gemini keyResult numKeys 0 = .error (.allFailed (some m))
        ∧ keyResult (numKeys - 1) = .err m) := by
  constructor
  · intro i hi hprior
    obtain ⟨last, hl⟩ := callLoop_reach keyResult numKeys i hi hprior
    have hfuel : numKeys - i = (numKeys - (i + 1)) + 1 := by omega
    rw [hfuel] at hl
    constructor
    · intro t ht
      rw [hl]
      simp only [callLoop, ht]
    · intro m hm hrl
      rw [hl]
      simp only [callLoop, hm, hrl, if_neg, Bool.false_eq_true, if_false]
  · intro hpos hall
    obtain ⟨last, hl⟩ :=
      callLoop_reach keyResult numKeys (numKeys - 1) (by omega)
        (fun j hj => hall j (by omega))
    have hfuel : numKeys - (numKeys - 1) = 1 := by omega
    rw [hfuel] at hl
    have hi : isRateLimitedResult (keyResult (numKeys - 1)) = true :=
      hall (numKeys - 1) (by omega)
    cases hk : keyResult (numKeys - 1) with
    | ok t => rw [hk] at hi; simp [isRateLimitedResult] at hi
    | err m =>
      rw [hk] at hi
      simp only [isRateLimitedResult] at hi
      refine ⟨m, ?_, rfl⟩
      rw [hl]
      have hnext : ¬ ((numKeys - 1) + 1 < numKeys) := by omega
      simp only [callLoop, hk, hi, if_true, if_neg hnext]

/-- Key-pool fixture for the claim C7 witness: key 0 hits a quota error,
every later key succeeds. -/
def demoKeys : Nat → GeminiResult := fun i =>
  if i = 0 then .err "429 RESOURCE_EXHAUSTED: quota exceeded" else .ok "hello"

/-- Witness for claim C7: with key 0 rate-limited and key 1 healthy, a
fresh call rotates once and returns the response of key 1. -/
theorem gemini_key_rotation_witness : call_gemini demoKeys 5 0 = .ok "hello" := by
  have h := (gemini_key_rotation demoKeys 5).1 1 (by decide)
    (by decide)
  exact h.1 "hello" (by decide)

/-! ### Claims C1 and C3 (image_generator.py icon acquisition chain) -/

theorem takeThrough_append_of_false (p : String → Bool) (l1 l2 : List String)
    (h : ∀ q ∈ l1, p q = false) :
    takeThrough p (l1 ++ l2) = l1 ++ takeThrough p l2 := by
  induction l1 with
  | nil => simp
  | cons a t ih =>
    have ha : p a = false := h a (by simp)
    simp only [List.cons_append, takeThrough, ha, Bool.false_eq_true, if_false,
      List.append_eq]
    rw [ih (fun q hq => h q (by simp [hq]))]

theorem afterWords_spec (tryQ : String → Bool) (gen : Option (List String → String))
    (failed : List String) :
    afterWords tryQ gen failed
      = ((altChain gen failed).any tryQ,
         failed ++ takeThrough tryQ (altChain gen failed)) := by
  cases gen with
  | none =>
    simp only [afterWords, altChain, finalAttempt, List.nil_append]
    by_cases h : tryQ "circle" <;> simp [takeThrough, h]
  | some altQ =>
    simp only [afterWords, altChain]
    by_cases h1 : tryQ (altQ failed)
    · simp [takeThrough, h1]
    · by_cases h2 : tryQ (altQ (failed ++ [altQ failed]))
      · simp [takeThrough, h1, h2, List.append_assoc]
      · by_cases h3 : tryQ "circle" <;>
          simp [takeThrough, finalAttempt, h1, h2, h3, List.append_assoc]

theorem search_eq_spec (tryQ : String → Bool) (gen : Option (List String → String))
    (query : String) :
    search_and_download tryQ gen query
      = ((icon_query_chain gen query).any tryQ,
         takeThrough tryQ (icon_query_chain gen query)) := by
  unfold search_and_download icon_query_chain
  dsimp only
  by_cases h0 : tryQ query
  · by_cases hw : (pyWords query).length > 1 <;>
      simp [h0, hw, takeThrough, -List.headD_eq_head?_getD]
  · have h0f : tryQ query = false := by simpa using h0
    by_cases hw : (pyWords query).length > 1
    · by_cases h1 : tryQ ((pyWords query).headD "")
      · simp [h0f, hw, h1, takeThrough, -List.headD_eq_head?_getD]
      · have h1f : tryQ ((pyWords query).headD "") = false := by simpa using h1
        rw [if_neg h0, if_pos hw, if_neg h1, afterWords_spec, if_pos hw,
          takeThrough_append_of_false tryQ [query, (pyWords query).headD ""] _
            (by intro q hq
                rcases List.mem_cons.mp hq with rfl | hq2
                · exact h0f
                · rw [List.mem_singleton.mp hq2]; exact h1f)]
        simp [h0f, h1f, -List.headD_eq_head?_getD]
    · rw [if_neg h0, if_neg hw, afterWords_spec, if_neg hw,
        takeThrough_append_of_false tryQ [query] _
          (by intro q hq
              rw [List.mem_singleton.mp hq]; exact h0f)]
      simp [h0f, -List.headD_eq_head?_getD]

theorem chain_length_le (gen : Option (List String → String)) (query : String) :
    (icon_query_chain gen query).length ≤ 5 := by
  unfold icon_query_chain altChain
  cases gen <;> by_cases hw : (pyWords query).length > 1 <;> simp [hw]

theorem takeThrough_length_le (p : String → Bool) :
    ∀ l : List String, (takeThrough p l).length ≤ l.length := by
  intro l
  induction l with
  | nil => simp [takeThrough]
  | cons q rest ih =>
    simp only [takeThrough]
    split
    · simp
    · simp only [List.length_cons]
      omega

/-- Claim C1 (amended): every search_and_download call attempts queries in
the strict order given by icon_query_chain — the derived phrase, then for
a multi-word phrase its first word, then (when a generator was supplied)
two generated alternatives, then the generic term — halting at the first
success; the total number of attempts is capped at 5, not 4 (4 only holds
when the phrase is single-word or no generator is supplied). -/
theorem icon_search_order_and_cap (tryQ : String → Bool)
    (gen : Option (List String → String)) (query : String) :
    search_and_download tryQ gen query
      = ((icon_query_chain gen query).any tryQ,
         takeThrough tryQ (icon_query_chain gen query))
    ∧ (icon_query_chain gen query).length ≤ 5
    ∧ (search_and_download tryQ gen query).2.length ≤ 5 := by
  refine ⟨search_eq_spec tryQ gen query, chain_length_le gen query, ?_⟩
  rw [search_eq_spec tryQ gen query]
  exact le_trans (takeThrough_length_le tryQ _) (chain_length_le gen query)

/-- Counterexample to claim C1 as stated: with a two-word query, a
generator available and every attempt failing, a single call makes 5
attempts (the phrase, its first word, two alternatives, the generic
term), exceeding the stated cap of 4. -/
theorem icon_attempt_cap_cex :
    ¬ ((search_and_download (fun _ => false)
        (some (fun failed => if failed.length = 2 then "alpha" else "beta"))
        "data chart").2.length ≤ 4) := by
  decide

theorem splitWS_all_no_ws :
    ∀ (l acc : List Char), (∀ c ∈ acc, c.isWhitespace = false) →
      ∀ w ∈ splitWS l acc, ∀ c ∈ w.toList, c.isWhitespace = false := by
  intro l
  induction l with
  | nil =>
    intro acc hacc w hw c hc
    simp only [splitWS] at hw
    split at hw
    · simp at hw
    · rw [List.mem_singleton] at hw
      subst hw
      have hms : (String.mk acc.reverse).toList = acc.reverse := rfl
      rw [hms] at hc
      exact hacc c (List.mem_reverse.mp hc)
  | cons c cs ih =>
    intro acc hacc w hw d hd
    simp only [splitWS] at hw
    by_cases hws : c.isWhitespace
    · rw [if_pos hws] at hw
      by_cases hacc0 : acc = []
      · rw [if_pos hacc0] at hw
        exact ih [] (by simp) w hw d hd
      · rw [if_neg hacc0] at hw
        rcases List.mem_cons.mp hw with rfl | hw2
        · have hms : (String.mk acc.reverse).toList = acc.reverse := rfl
          rw [hms] at hd
          exact hacc d (List.mem_reverse.mp hd)
        · exact ih [] (by simp) w hw2 d hd
    · rw [if_neg hws] at hw
      refine ih (c :: acc) ?_ w hw d hd
      intro x hx
      rcases List.mem_cons.mp hx with rfl | hx2
      · simpa using hws
      · exact hacc x hx2

theorem splitWS_length_le_one :
    ∀ (l acc : List Char), (∀ c ∈ l, c.isWhitespace = false) →
      (splitWS l acc).length ≤ 1 := by
  intro l
  induction l with
  | nil =>
    intro acc _
    simp only [splitWS]
    split <;> simp
  | cons c cs ih =>
    intro acc h
    have hc : c.isWhitespace = false := h c (by simp)
    simp only [splitWS, hc, Bool.false_eq_true, if_false]
    exact ih (c :: acc) (fun x hx => h x (by simp [hx]))

theorem pyWords_no_ws (s : String) :
    ∀ w ∈ pyWords s, ∀ c ∈ w.toList, c.isWhitespace = false :=
  fun w hw => splitWS_all_no_ws s.toList [] (by simp) w hw

theorem multiword_query_ne_first (query : String)
    (hw : (pyWords query).length > 1) :
    query ≠ (pyWords query).headD "" := by
  intro heq
  have hhead : (pyWords query).headD "" ∈ pyWords query := by
    cases hq : pyWords query with
    | nil => rw [hq] at hw; simp at hw
    | cons a t => simp
  have hnws : ∀ c ∈ query.toList, c.isWhitespace = false := by
    rw [heq]
    exact pyWords_no_ws query _ hhead
  have hle := splitWS_length_le_one query.toList [] hnws
  unfold pyWords at hw
  omega

theorem pick_not_mem (cands avoid : List String) (h : avoid.length ≤ 4) :
    (match cands.find? (fun c => !(avoid.contains c)) with
     | some c => c
     | none =>
       match generic_fallbacks.find? (fun g => !(avoid.contains g)) with
       | some g => g
       | none => "circle") ∉ avoid := by
  cases hf : cands.find? (fun c => !(avoid.contains c)) with
  | some c =>
    have hp := List.find?_some hf
    simp only [Bool.not_eq_true'] at hp
    simpa using hp
  | none =>
    cases hg : generic_fallbacks.find? (fun g => !(avoid.contains g)) with
    | some g =>
      have hp := List.find?_some hg
      simp only [Bool.not_eq_true'] at hp
      simpa using hp
    | none =>
      exfalso
      have hall := List.find?_eq_none.mp hg
      have hsub : generic_fallbacks ⊆ avoid := by
        intro g hgm
        have hnot := hall g hgm
        simpa using hnot
      have hnd : generic_fallbacks.Nodup := by decide
      have hle := (hnd.subperm hsub).length_le
      rw [show generic_fallbacks.length = 5 from rfl] at hle
      omega

theorem extract_alternative_not_mem (title : String) (avoid : List String)
    (h : avoid.length ≤ 4) :
    extract_alternative_from_title title avoid ∉ avoid := by
  unfold extract_alternative_from_title
  exact pick_not_mem _ avoid h

theorem generate_alternative_query_not_mem (gem : List String → Option String)
    (title : String) (failed : List String) (h : failed.length ≤ 4) :
    generate_alternative_query gem title failed ∉ failed := by
  unfold generate_alternative_query
  cases gem failed with
  | none => exact extract_alternative_not_mem title failed h
  | some raw =>
    dsimp only
    by_cases hq : failed.contains (cleanQuery raw)
    · rw [if_pos hq]
      exact extract_alternative_not_mem title failed h
    · rw [if_neg hq]
      intro hmem
      exact hq (by simpa using hmem)

theorem chain_dropLast_nodup (gem : List String → Option String)
    (title query : String) :
    ((icon_query_chain (some (generate_alternative_query gem title)) query).dropLast).Nodup := by
  unfold icon_query_chain altChain
  by_cases hw : (pyWords query).length > 1
  · rw [if_pos hw]
    have h1 := multiword_query_ne_first query hw
    have h2 := generate_alternative_query_not_mem gem title
      [query, (pyWords query).headD ""] (by simp)
    have h3 := generate_alternative_query_not_mem gem title
      [query, (pyWords query).headD "",
        generate_alternative_query gem title [query, (pyWords query).headD ""]]
      (by simp)
    simp only [List.mem_cons, List.not_mem_nil, or_false, not_or] at h2 h3
    simp only [List.cons_append, List.nil_append, List.dropLast_cons₂,
      List.dropLast_single]
    simp only [List.nodup_cons, List.mem_cons, List.not_mem_nil, or_false, not_or,
      List.nodup_nil, and_true]
    exact ⟨⟨h1, Ne.symm h2.1, Ne.symm h3.1⟩, ⟨Ne.symm h2.2, Ne.symm h3.2.1⟩,
      Ne.symm h3.2.2, not_false⟩
  · rw [if_neg hw]
    have h2 := generate_alternative_query_not_mem gem title [query] (by simp)
    have h3 := generate_alternative_query_not_mem gem title
      [query, generate_alternative_query gem title [query]] (by simp)
    simp only [List.mem_cons, List.not_mem_nil, or_false, not_or] at h2 h3
    simp only [List.cons_append, List.nil_append, List.dropLast_cons₂,
      List.dropLast_single]
    simp only [List.nodup_cons, List.mem_cons, List.not_mem_nil, or_false, not_or,
      List.nodup_nil, and_true]
    exact ⟨⟨Ne.symm h2, Ne.symm h3.1⟩, Ne.symm h3.2, not_false⟩

theorem takeThrough_ne_nil (p : String → Bool) (l : List String) (h : l ≠ []) :
    takeThrough p l ≠ [] := by
  cases l with
  | nil => simp at h
  | cons q rest =>
    simp only [takeThrough]
    split <;> simp

theorem takeThrough_dropLast_sublist (p : String → Bool) :
    ∀ l : List String, ((takeThrough p l).dropLast).Sublist l.dropLast := by
  intro l
  induction l with
  | nil => simp [takeThrough]
  | cons q rest ih =>
    simp only [takeThrough]
    by_cases h : p q
    · rw [if_pos h]
      simp
    · rw [if_neg h]
      cases hre : rest with
      | nil => simp [takeThrough]
      | cons r rs =>
        have hne : takeThrough p (r :: rs) ≠ [] :=
          takeThrough_ne_nil p (r :: rs) (by simp)
        rw [hre] at ih
        rw [List.dropLast_cons_of_ne_nil hne, List.dropLast_cons₂]
        exact List.Sublist.cons₂ q ih

theorem takeThrough_dropLast_false (p : String → Bool) :
    ∀ (l : List String) (q : String), q ∈ (takeThrough p l).dropLast → p q = false := by
  intro l
  induction l with
  | nil => intro q hq; simp [takeThrough] at hq
  | cons a rest ih =>
    intro q hq
    simp only [takeThrough] at hq
    by_cases h : p a
    · rw [if_pos h] at hq
      simp at hq
    · rw [if_neg h] at hq
      by_cases hre : takeThrough p rest = []
      · rw [hre] at hq
        simp at hq
      · rw [List.dropLast_cons_of_ne_nil hre] at hq
        rcases List.mem_cons.mp hq with rfl | hq2
        · simpa using h
        · exact ih q hq2

theorem takeThrough_of_all_false (p : String → Bool) :
    ∀ l : List String, (∀ q ∈ l, p q = false) → takeThrough p l = l := by
  intro l
  induction l with
  | nil => simp [takeThrough]
  | cons a rest ih =>
    intro h
    have ha := h a (by simp)
    simp only [takeThrough, ha, Bool.false_eq_true, if_false]
    rw [ih (fun q hq => h q (by simp [hq]))]

theorem takeThrough_getLast_success (p : String → Bool) :
    ∀ l : List String, l.any p = true →
      ∃ x, (takeThrough p l).getLast? = some x ∧ p x = true := by
  intro l
  induction l with
  | nil => intro h; simp at h
  | cons a rest ih =>
    intro h
    by_cases ha : p a
    · exact ⟨a, by simp [takeThrough, ha], ha⟩
    · have hrest : rest.any p = true := by
        simp only [List.any_cons, ha, Bool.false_or] at h
        exact h
      obtain ⟨x, hx1, hx2⟩ := ih hrest
      refine ⟨x, ?_, hx2⟩
      simp only [takeThrough, ha, Bool.false_eq_true, if_false]
      cases ht : takeThrough p rest with
      | nil =>
        exact absurd ht (takeThrough_ne_nil p rest (by rintro rfl; simp at hrest))
      | cons y ys =>
        rw [List.getLast?_cons_cons, ← ht]
        exact hx1

theorem chain_getLast (gen : Option (List String → String)) (query : String) :
    (icon_query_chain gen query).getLast? = some "circle" := by
  unfold icon_query_chain altChain
  cases gen <;> by_cases hw : (pyWords query).length > 1 <;> simp [hw]

theorem circle_mem_chain (gen : Option (List String → String)) (query : String) :
    "circle" ∈ icon_query_chain gen query := by
  unfold icon_query_chain altChain
  cases gen <;> by_cases hw : (pyWords query).length > 1 <;> simp [hw]

/-- Claim C3 (amended): within one search_and_download call, no attempt
before the final generic-fallback attempt repeats a previously failed
query (the generated alternatives are guaranteed fresh); the final
generic-fallback attempt, however, is unconditional and may repeat an
already-failed query.  The chain terminates at the first success, and
otherwise its last attempt is exactly the generic fallback phrase. -/
theorem icon_no_repeat_before_fallback (tryQ : String → Bool)
    (gem : List String → Option String) (title query : String) :
    (((search_and_download tryQ (some (generate_alternative_query gem title)) query).2).dropLast).Nodup
    ∧ (∀ q ∈ ((search_and_download tryQ
          (some (generate_alternative_query gem title)) query).2).dropLast,
        tryQ q = false)
    ∧ (∃ lastq,
        ((search_and_download tryQ
            (some (generate_alternative_query gem title)) query).2).getLast? = some lastq
        ∧ (search_and_download tryQ
            (some (generate_alternative_query gem title)) query).1 = tryQ lastq
        ∧ ((search_and_download tryQ
              (some (generate_alternative_query gem title)) query).1 = false →
            lastq = "circle")) := by
  have hspec := search_eq_spec tryQ (some (generate_alternative_query gem title)) query
  have h2 : (search_and_download tryQ (some (generate_alternative_query gem title)) query).2
      = takeThrough tryQ (icon_query_chain (some (generate_alternative_query gem title)) query) := by
    rw [hspec]
  have h1 : (search_and_download tryQ (some (generate_alternative_query gem title)) query).1
      = (icon_query_chain (some (generate_alternative_query gem title)) query).any tryQ := by
    rw [hspec]
  refine ⟨?_, ?_, ?_⟩
  · rw [h2]
    exact (takeThrough_dropLast_sublist tryQ _).nodup (chain_dropLast_nodup gem title query)
  · rw [h2]
    exact fun q hq => takeThrough_dropLast_false tryQ _ q hq
  · by_cases hany : (icon_query_chain (some (generate_alternative_query gem title)) query).any tryQ
    · obtain ⟨x, hx1, hx2⟩ := takeThrough_getLast_success tryQ _ hany
      refine ⟨x, by rw [h2]; exact hx1, by rw [h1, hany, hx2], ?_⟩
      intro hfalse
      rw [h1, hany] at hfalse
      cases hfalse
    · simp only [Bool.not_eq_true] at hany
      have hallf : ∀ q ∈ icon_query_chain (some (generate_alternative_query gem title)) query,
          tryQ q = false := by
        intro q hq
        have hnq := List.any_eq_false.mp hany q hq
        simpa using hnq
      have heq := takeThrough_of_all_false tryQ _ hallf
      refine ⟨"circle", ?_, ?_, fun _ => rfl⟩
      · rw [h2, heq]
        exact chain_getLast _ query
      · rw [h1, hany]
        exact (hallf "circle" (circle_mem_chain _ query)).symm

/-- Counterexample to claim C3 as stated: when the initial query is
itself the generic term and fails, the unconditional final fallback
attempts the very same failed query again, so a query equal to an
already-failed query is re-attempted within one call. -/
theorem icon_repeat_cex :
    (search_and_download (fun _ => false)
        (some (generate_alternative_query (fun _ => none) "Data Analysis Overview"))
        "circle").2 = ["circle", "data", "analysis", "circle"]
    ∧ ¬ (["circle", "data", "analysis", "circle"] : List String).Nodup := by
  constructor
  · decide
  · decide

/-- Witness for claim C3 (amended): on a concrete failing run the
attempted queries before the final fallback are pairwise distinct, and
the theorem reports the first of them as failed. -/
theorem icon_no_repeat_before_fallback_witness :
    ((search_and_download (fun _ => false)
        (some (generate_alternative_query (fun _ => none) "Data Analysis Overview"))
        "chart").2.dropLast).Nodup
    ∧ (fun _ : String => false) "chart" = false := by
  refine ⟨(icon_no_repeat_before_fallback (fun _ => false) (fun _ => none)
      "Data Analysis Overview" "chart").1, ?_⟩
  exact (icon_no_repeat_before_fallback (fun _ => false) (fun _ => none)
      "Data Analysis Overview" "chart").2.1 "chart" (by decide)

/-! ### Claim C9 (summarizer.py output dictionary) -/

/-- Claim C9: the summarization stage output satisfies total_slides =
content slide count + 1, and consists of exactly the four fields
title_slide, content_slides, total_slides and narration_script as
assembled by extract_slides_from_pdf_text. -/
theorem slides_data_schema (titleResp : Option TitleSlide) (outcome : AIOutcome)
    (pdf_text : String) (num_slides : Nat) :
    (extract_slides_from_pdf_text titleResp outcome pdf_text num_slides).total_slides
      = (extract_slides_from_pdf_text titleResp outcome pdf_text
          num_slides).content_slides.length + 1
    ∧ extract_slides_from_pdf_text titleResp outcome pdf_text num_slides
      = { title_slide := generate_title_slide titleResp "",
          content_slides := extract_key_points outcome pdf_text num_slides 12,
          total_slides := (extract_key_points outcome pdf_text num_slides 12).length + 1,
          narration_script :=
            summarize_for_video (extract_key_points outcome pdf_text num_slides 12) } :=
  ⟨rfl, rfl⟩

/-! ### Claim C4 (pdf_slide_creator.py word wrap) -/

theorem wrapLoop_line_ok (w : String → ℚ) (maxWidth : ℚ) :
    ∀ (words : List String) (current_line : String),
      (∀ word ∈ words, ∀ c ∈ word.toList, c.isWhitespace = false) →
      (current_line = ""
        ∨ (∀ c ∈ current_line.toList, c.isWhitespace = false)
        ∨ w current_line < maxWidth) →
      ∀ line ∈ wrapLoop w maxWidth words current_line,
        (∀ c ∈ line.toList, c.isWhitespace = false) ∨ w line < maxWidth := by
  intro words
  induction words with
  | nil =>
    intro cur _ hcur line hline
    simp only [wrapLoop] at hline
    by_cases hc : cur = ""
    · rw [if_pos hc] at hline
      simp at hline
    · rw [if_neg hc] at hline
      rw [List.mem_singleton] at hline
      subst hline
      rcases hcur with h | h | h
      · exact absurd h hc
      · exact Or.inl h
      · exact Or.inr h
  | cons word rest ih =>
    intro cur hws hcur line hline
    have hword : ∀ c ∈ word.toList, c.isWhitespace = false :=
      fun c hc => hws word (by simp) c hc
    have hrest : ∀ v ∈ rest, ∀ c ∈ v.toList, c.isWhitespace = false :=
      fun v hv c hc => hws v (by simp [hv]) c hc
    simp only [wrapLoop] at hline
    by_cases ht : w (if cur = "" then word else cur ++ " " ++ word) < maxWidth
    · rw [if_pos ht] at hline
      exact ih _ hrest (Or.inr (Or.inr ht)) line hline
    · rw [if_neg ht] at hline
      by_cases hc : cur = ""
      · rw [if_pos hc] at hline
        exact ih _ hrest (Or.inr (Or.inl hword)) line hline
      · rw [if_neg hc] at hline
        rcases List.mem_cons.mp hline with rfl | h2
        · rcases hcur with h | h | h
          · exact absurd h hc
          · exact Or.inl h
          · exact Or.inr h
        · exact ih _ hrest (Or.inr (Or.inl hword)) line h2

/-- Claim C4 (amended): every line emitted by the greedy word wrap either
consists of a single word (no whitespace in it) or has measured width
strictly below the limit; a single word whose own width reaches the limit
is emitted as a line of its own and may exceed it. -/
theorem wrap_width_bound (w : String → ℚ) (maxWidth : ℚ) (text : String)
    (line : String) (hline : line ∈ wrap_text w maxWidth text) :
    (∀ c ∈ line.toList, c.isWhitespace = false) ∨ w line < maxWidth := by
  unfold wrap_text at hline
  exact wrapLoop_line_ok w maxWidth (pyWords text) ""
    (fun word hw => pyWords_no_ws text word hw) (Or.inl rfl) line hline

/-- Counterexample to claim C4 as stated: under a character-count measure
with limit 5, the 8-character single word is emitted as a line whose
measured width exceeds the limit. -/
theorem wrap_width_cex :
    wrap_text (fun s => (s.length : ℚ)) 5 "abcdefgh" = ["abcdefgh"]
    ∧ ¬ ((fun s => ((s.length : ℚ))) "abcdefgh" ≤ 5) := by
  constructor
  · decide
  · decide

/-- Witness for claim C4 (amended): the wrapped line of a short two-word
text satisfies the disjunction. -/
theorem wrap_width_bound_witness :
    (∀ c ∈ ("hi there" : String).toList, c.isWhitespace = false)
    ∨ (fun s => ((s.length : ℚ))) "hi there" < 100 :=
  wrap_width_bound (fun s => ((s.length : ℚ))) 100 "hi there" "hi there" (by decide)

/-! ### Claim C8 (video_creator.py narration generation) -/

theorem ttsLoop_length (dur : String → ℚ) :
    ∀ (l : List Slide) (i : Nat), (ttsLoop dur i l).length = l.length := by
  intro l
  induction l with
  | nil => intro i; simp [ttsLoop]
  | cons s rest ih => intro i; simp [ttsLoop, ih]

theorem ttsLoop_get (dur : String → ℚ) :
    ∀ (l : List Slide) (k i : Nat) (h : i < l.length),
      (ttsLoop dur k l)[i]?
        = some (some (audio_file_name (k + i)), dur (narration_text l[i])) := by
  intro l
  induction l with
  | nil => intro k i h; simp at h
  | cons s rest ih =>
    intro k i h
    cases i with
    | zero => simp [ttsLoop]
    | succ n =>
      simp only [ttsLoop, List.getElem?_cons_succ, List.getElem_cons_succ]
      have hh : n < rest.length := by simpa using h
      rw [ih (k + 1) n hh]
      have harith : k + 1 + n = k + (n + 1) := by omega
      rw [harith]

/-- Claim C8: generate_tts_audio yields the title slide first, with no
audio file and the fixed 3.0-second display duration, followed by exactly
one synthesized narration clip per content slide, named audio_NN.mp3 for
slide NN and narrating the speaker notes when present, and the title
concatenated with the bullets otherwise. -/
theorem tts_title_silent_one_clip_per_slide (dur : String → ℚ)
    (content_slides : List Slide) :
    (generate_tts_audio dur content_slides).length = content_slides.length + 1
    ∧ (generate_tts_audio dur content_slides).head?
        = some (none, title_default_duration)
    ∧ title_default_duration = 3
    ∧ (∀ i, (h : i < content_slides.length) →
        (generate_tts_audio dur content_slides)[i + 1]?
          = some (some (audio_file_name (i + 1)),
              dur (narration_text content_slides[i])))
    ∧ (∀ s : Slide, s.speaker_notes ≠ "" → narration_text s = s.speaker_notes)
    ∧ (∀ s : Slide, s.speaker_notes = "" →
        narration_text s = s.title ++ ". " ++ String.intercalate " " s.bullets) := by
  refine ⟨?_, rfl, rfl, ?_, ?_, ?_⟩
  · simp [generate_tts_audio, ttsLoop_length]
  · intro i h
    simp only [generate_tts_audio, List.getElem?_cons_succ]
    rw [ttsLoop_get dur content_slides 1 i h]
    have harith : 1 + i = i + 1 := by omega
    rw [harith]
  · intro s hs
    simp [narration_text, hs]
  · intro s hs
    simp [narration_text, hs]

/-- Witness for claim C8: with one content slide carrying speaker notes
and a constant-duration synthesizer, entry 1 of the audio list is the
clip audio_01.mp3 with that duration. -/
theorem tts_title_silent_one_clip_per_slide_witness :
    (generate_tts_audio (fun _ => (7 : ℚ)) [Slide.mk "T" ["b1", "b2"] "notes"])[1]?
      = some (some "audio_01.mp3", (7 : ℚ)) := by
  have h := (tts_title_silent_one_clip_per_slide (fun _ => (7 : ℚ))
      [Slide.mk "T" ["b1", "b2"] "notes"]).2.2.2.1 0 (by decide)
  rw [Nat.zero_add] at h
  rw [h]
  decide

/-! ### Claim C2 (video_creator.py slide and audio pairing) -/

/-- Claim C2 evaluated at a failing input (the resume path is a code
bug): with two content slides and no files on disk, the assembled video
pairs the title frame slide_00.png with the silent 3-second entry and
frame i with clip audio_0i.mp3; resuming with the previously written
audio files audio_01.mp3 and audio_02.mp3 on disk, the rebuilt audio list
lacks the silent title entry, so the title frame slide_00.png is paired
with audio_01.mp3, every narration shifts one slide early, and the final
frame slide_02.png is dropped from the video. -/
theorem video_resume_misalignment :
    create_video_complete (fun _ => 2) (fun _ => 2)
        [Slide.mk "A" ["a1"] "na", Slide.mk "B" ["b1"] "nb"]
        [] [] (fun _ => true)
      = [("slide_00.png", none, title_default_duration),
         ("slide_01.png", some "audio_01.mp3", 2),
         ("slide_02.png", some "audio_02.mp3", 2)]
    ∧ create_video_complete (fun _ => 2) (fun _ => 2)
        [Slide.mk "A" ["a1"] "na", Slide.mk "B" ["b1"] "nb"]
        [] ["audio_02.mp3", "audio_01.mp3"] (fun _ => true)
      = [("slide_00.png", some "audio_01.mp3", 2),
         ("slide_01.png", some "audio_02.mp3", 2)] := by
  constructor
  · decide
  · decide

end PdfToPpt
